import Mathlib

/-!
Shallow embedding of the scoring and ranking engine of the pick'em
sports-league application: the `calculateCompetitionScores` SQL batch
(grade picks, MERGE-upsert Scores, RANK() window ranking, mark the
competition scored) and the `calculateSeasonStandings` SQL batch
(aggregate Scores of Completed competitions, MERGE-upsert
SeasonStandings, RANK() ranking).

Modelling conventions:
- SQL NULL for a column value is `Option`; a SQL comparison involving a
  NULL operand is UNKNOWN and a CASE/WHERE treats it as false, which is
  embedded by `optGt` returning `false` on a missing operand.
- Tables are lists of rows; uniqueness constraints of the schema
  (e.g. one Score row per (competition, user)) are hypotheses where a
  statement needs them, not baked into the types.
- DECIMAL(10,2) money-like columns are embedded as `ℚ`; INT columns as
  `Int` or `Nat`; identifier columns (UNIQUEIDENTIFIER) as `Nat`.
- Row identity columns (`Id`, defaulted to NEWID()) and audit timestamp
  columns (`CreatedAt`, `UpdatedAt`, `CalculatedAt`, GETUTCDATE()) play
  no role in the graded values, aggregates or ranks and are omitted;
  likewise the final SELECT's ORDER BY, which only presents rows.
-/

namespace Pickem

/-- Game.Status CHECK constraint values. -/
inductive GameStatus where
  | Scheduled
  | InProgress
  | Final
  | Postponed
  | Cancelled
  deriving DecidableEq, Repr

/-- Competition.Status CHECK constraint values. -/
inductive CompetitionStatus where
  | Upcoming
  | Active
  | Locked
  | Completed
  | Cancelled
  deriving DecidableEq, Repr

/-- A row of the Games table (columns the scoring engine reads). -/
structure Game where
  id : Nat
  competitionId : Nat
  homeTeam : String
  awayTeam : String
  homeTeamScore : Option Int
  awayTeamScore : Option Int
  status : GameStatus
  deriving DecidableEq, Repr

/-- A row of the Picks table (columns the scoring engine reads/writes). -/
structure Pick where
  id : Nat
  competitionId : Nat
  gameId : Nat
  userId : Nat
  pickedTeam : String
  confidencePoints : Int
  isCorrect : Option Bool
  pointsEarned : Option ℚ
  deriving DecidableEq, Repr

/-- A row of the Scores table. -/
structure Score where
  competitionId : Nat
  userId : Nat
  totalPoints : ℚ
  correctPicks : Nat
  totalPicks : Nat
  rank : Option Nat
  deriving DecidableEq, Repr

/-- A row of the Competitions table (columns the scoring engine touches). -/
structure Competition where
  id : Nat
  leagueId : Nat
  status : CompetitionStatus
  scoringCalculated : Bool
  deriving DecidableEq, Repr

/-- A row of the SeasonStandings table. -/
structure SeasonStanding where
  leagueId : Nat
  userId : Nat
  totalPoints : ℚ
  weeksParticipated : Nat
  totalCorrectPicks : Nat
  totalPicks : Nat
  averagePointsPerWeek : Option ℚ
  rank : Option Nat
  deriving DecidableEq, Repr

/-- The database state the two calculation handlers read and write. -/
structure DB where
  competitions : List Competition
  games : List Game
  picks : List Pick
  scores : List Score
  seasonStandings : List SeasonStanding
  deriving DecidableEq, Repr

/-- SQL `a > b` under three-valued logic: UNKNOWN (hence not taken by a
CASE arm) when either operand is NULL. -/
def optGt (a b : Option Int) : Bool :=
  match a, b with
  | some x, some y => decide (y < x)
  | _, _ => false

/-- The winning-pick condition of both CASE expressions in the grading
UPDATE: `(p.PickedTeam = g.HomeTeam AND g.HomeTeamScore > g.AwayTeamScore)
OR (p.PickedTeam = g.AwayTeam AND g.AwayTeamScore > g.HomeTeamScore)`. -/
def pickWins (p : Pick) (g : Game) : Bool :=
  (decide (p.pickedTeam = g.homeTeam) && optGt g.homeTeamScore g.awayTeamScore)
    || (decide (p.pickedTeam = g.awayTeam) && optGt g.awayTeamScore g.homeTeamScore)

/-- The two CASE expressions of the grading UPDATE applied to one pick
joined with its game: IsCorrect is 1 / 0 / NULL, PointsEarned is
ConfidencePoints when the Final-and-won arm fires and 0 otherwise
(note the SQL `ELSE 0`, which also covers non-Final games). -/
def gradePick (p : Pick) (g : Game) : Pick :=
  { p with
    isCorrect :=
      if g.status = GameStatus.Final ∧ pickWins p g = true then some true
      else if g.status = GameStatus.Final then some false
      else none
    pointsEarned :=
      if g.status = GameStatus.Final ∧ pickWins p g = true then some (p.confidencePoints : ℚ)
      else some 0 }

/-- INNER JOIN `Games g ON p.GameId = g.Id` (Id is the primary key). -/
def findGame (games : List Game) (gid : Nat) : Option Game :=
  games.find? (fun g => decide (g.id = gid))

/-- Effect of the grading UPDATE on one Picks row: rows of the requested
competition that join a Games row are re-graded, all others are
untouched. -/
def gradeForCalc (cid : Nat) (games : List Game) (p : Pick) : Pick :=
  if p.competitionId = cid then
    match findGame games p.gameId with
    | some g => gradePick p g
    | none => p
  else p

/-- `WHERE CompetitionId = @competitionId` over Picks. -/
def compPicks (picks : List Pick) (cid : Nat) : List Pick :=
  picks.filter (fun p => decide (p.competitionId = cid))

/-- One user's picks within the competition (one GROUP BY UserId group). -/
def userCompPicks (picks : List Pick) (cid uid : Nat) : List Pick :=
  (compPicks picks cid).filter (fun p => decide (p.userId = uid))

/-- `SUM(ISNULL(PointsEarned, 0))` of a user's group. -/
def aggTotalPoints (picks : List Pick) (cid uid : Nat) : ℚ :=
  ((userCompPicks picks cid uid).map (fun p => p.pointsEarned.getD 0)).sum

/-- `SUM(CASE WHEN IsCorrect = 1 THEN 1 ELSE 0 END)` of a user's group
(a NULL IsCorrect fails the `= 1` comparison and counts 0). -/
def aggCorrectPicks (picks : List Pick) (cid uid : Nat) : Nat :=
  ((userCompPicks picks cid uid).filter (fun p => decide (p.isCorrect = some true))).length

/-- `COUNT(*)` of a user's group. -/
def aggTotalPicks (picks : List Pick) (cid uid : Nat) : Nat :=
  (userCompPicks picks cid uid).length

/-- The GROUP BY UserId keys: the distinct users owning at least one
pick in the competition. -/
def pickUsers (picks : List Pick) (cid : Nat) : List Nat :=
  ((compPicks picks cid).map (fun p => p.userId)).dedup

/-- Whether a Scores row for (competition, user) already exists, i.e.
whether the MERGE source row is MATCHED. -/
def hasScoreRow (scores : List Score) (cid u : Nat) : Bool :=
  scores.any (fun s => decide (s.competitionId = cid ∧ s.userId = u))

/-- WHEN MATCHED branch of the Scores MERGE: a target row matching a
source row gets the freshly aggregated values (Rank is not touched). -/
def refreshScoreRow (cid : Nat) (picks : List Pick) (users : List Nat) (s : Score) : Score :=
  if s.competitionId = cid ∧ s.userId ∈ users then
    { s with
      totalPoints := aggTotalPoints picks cid s.userId
      correctPicks := aggCorrectPicks picks cid s.userId
      totalPicks := aggTotalPicks picks cid s.userId }
  else s

/-- WHEN NOT MATCHED branch of the Scores MERGE: the inserted row
(Rank column left at its NULL default). -/
def newScoreRow (cid : Nat) (picks : List Pick) (u : Nat) : Score :=
  { competitionId := cid
    userId := u
    totalPoints := aggTotalPoints picks cid u
    correctPicks := aggCorrectPicks picks cid u
    totalPicks := aggTotalPicks picks cid u
    rank := none }

/-- The Scores MERGE: every target row matched by a source row is
updated in place, and a row is inserted for every source group with no
existing target row. Unmatched target rows are left alone (the MERGE
has no WHEN NOT MATCHED BY SOURCE clause). -/
def upsertScores (cid : Nat) (picks : List Pick) (scores : List Score) : List Score :=
  let users := pickUsers picks cid
  scores.map (refreshScoreRow cid picks users)
    ++ ((users.filter (fun u => ! hasScoreRow scores cid u)).map (newScoreRow cid picks))

/-- Strict precedence of the `ORDER BY ... DESC, ... DESC` sort key
pairs used by both RANK() computations. -/
def keyBeats (a b : ℚ × Nat) : Bool :=
  decide (b.1 < a.1) || (decide (a.1 = b.1) && decide (b.2 < a.2))

/-- Sort key of `RANK() OVER (ORDER BY TotalPoints DESC, CorrectPicks DESC)`. -/
def scoreKey (s : Score) : ℚ × Nat :=
  (s.totalPoints, s.correctPicks)

/-- Row `t` sorts strictly before row `s` in the Scores ranking. -/
def scoreBeats (t s : Score) : Bool :=
  keyBeats (scoreKey t) (scoreKey s)

/-- The value RANK() assigns to row `s` over the window `rows`: one plus
the number of rows sorting strictly before it. -/
def scoreRankValue (rows : List Score) (s : Score) : Nat :=
  1 + (rows.filter (fun t => scoreBeats t s)).length

/-- The RankedScores CTE + UPDATE: every Scores row of the competition
receives its RANK() value; rows of other competitions are untouched. -/
def rankScoreRows (cid : Nat) (scores : List Score) : List Score :=
  let rows := scores.filter (fun t => decide (t.competitionId = cid))
  scores.map (fun s =>
    if s.competitionId = cid then { s with rank := some (scoreRankValue rows s) } else s)

/-- `UPDATE Competitions SET ScoringCalculated = 1 WHERE Id = @competitionId`. -/
def markScored (cid : Nat) (c : Competition) : Competition :=
  if c.id = cid then { c with scoringCalculated := true } else c

/-- The whole `calculateCompetitionScores` SQL batch: grade the
competition's picks, MERGE-upsert the aggregated Scores, assign ranks,
and mark the competition scored. -/
def calculateCompetitionScores (cid : Nat) (db : DB) : DB :=
  let gp := db.picks.map (gradeForCalc cid db.games)
  { db with
    picks := gp
    scores := rankScoreRows cid (upsertScores cid gp db.scores)
    competitions := db.competitions.map (markScored cid) }

/-- INNER JOIN `Competitions c ON s.CompetitionId = c.Id` (Id is the
primary key). -/
def findCompetition (comps : List Competition) (cid : Nat) : Option Competition :=
  comps.find? (fun c => decide (c.id = cid))

/-- The season-aggregation source rows: Scores joined to their
Competition, kept only when `c.LeagueId = @leagueId AND
c.Status = 'Completed'`. -/
def leagueCompletedScores (db : DB) (lid : Nat) : List Score :=
  db.scores.filter (fun s =>
    match findCompetition db.competitions s.competitionId with
    | some c => decide (c.leagueId = lid ∧ c.status = CompetitionStatus.Completed)
    | none => false)

/-- One user's rows among the season-aggregation source (one GROUP BY
UserId group). -/
def userScoreRows (rows : List Score) (uid : Nat) : List Score :=
  rows.filter (fun s => decide (s.userId = uid))

/-- `SUM(s.TotalPoints)` of a user's group. -/
def ssTotalPoints (rows : List Score) (uid : Nat) : ℚ :=
  ((userScoreRows rows uid).map (fun s => s.totalPoints)).sum

/-- `COUNT(DISTINCT s.CompetitionId)` of a user's group. -/
def ssWeeksParticipated (rows : List Score) (uid : Nat) : Nat :=
  ((userScoreRows rows uid).map (fun s => s.competitionId)).dedup.length

/-- `SUM(s.CorrectPicks)` of a user's group. -/
def ssTotalCorrectPicks (rows : List Score) (uid : Nat) : Nat :=
  ((userScoreRows rows uid).map (fun s => s.correctPicks)).sum

/-- `SUM(s.TotalPicks)` of a user's group. -/
def ssTotalPicks (rows : List Score) (uid : Nat) : Nat :=
  ((userScoreRows rows uid).map (fun s => s.totalPicks)).sum

/-- `AVG(s.TotalPoints)` of a user's group: the sum of the group's
TotalPoints divided by the number of rows in the group. -/
def ssAveragePoints (rows : List Score) (uid : Nat) : ℚ :=
  ssTotalPoints rows uid / ((userScoreRows rows uid).length : ℚ)

/-- The GROUP BY UserId keys of the season aggregation. -/
def standingUsers (rows : List Score) : List Nat :=
  (rows.map (fun s => s.userId)).dedup

/-- Whether a SeasonStandings row for (league, user) already exists. -/
def hasStandingRow (standings : List SeasonStanding) (lid u : Nat) : Bool :=
  standings.any (fun t => decide (t.leagueId = lid ∧ t.userId = u))

/-- WHEN MATCHED branch of the SeasonStandings MERGE (Rank untouched). -/
def refreshStandingRow (lid : Nat) (rows : List Score) (users : List Nat)
    (t : SeasonStanding) : SeasonStanding :=
  if t.leagueId = lid ∧ t.userId ∈ users then
    { t with
      totalPoints := ssTotalPoints rows t.userId
      weeksParticipated := ssWeeksParticipated rows t.userId
      totalCorrectPicks := ssTotalCorrectPicks rows t.userId
      totalPicks := ssTotalPicks rows t.userId
      averagePointsPerWeek := some (ssAveragePoints rows t.userId) }
  else t

/-- WHEN NOT MATCHED branch of the SeasonStandings MERGE. -/
def newStandingRow (lid : Nat) (rows : List Score) (u : Nat) : SeasonStanding :=
  { leagueId := lid
    userId := u
    totalPoints := ssTotalPoints rows u
    weeksParticipated := ssWeeksParticipated rows u
    totalCorrectPicks := ssTotalCorrectPicks rows u
    totalPicks := ssTotalPicks rows u
    averagePointsPerWeek := some (ssAveragePoints rows u)
    rank := none }

/-- The SeasonStandings MERGE (no WHEN NOT MATCHED BY SOURCE clause:
unmatched target rows persist). -/
def upsertStandings (lid : Nat) (rows : List Score)
    (standings : List SeasonStanding) : List SeasonStanding :=
  let users := standingUsers rows
  standings.map (refreshStandingRow lid rows users)
    ++ ((users.filter (fun u => ! hasStandingRow standings lid u)).map (newStandingRow lid rows))

/-- Sort key of `RANK() OVER (ORDER BY TotalPoints DESC, TotalCorrectPicks DESC)`. -/
def standingKey (t : SeasonStanding) : ℚ × Nat :=
  (t.totalPoints, t.totalCorrectPicks)

/-- Row `a` sorts strictly before row `b` in the standings ranking. -/
def standingBeats (a b : SeasonStanding) : Bool :=
  keyBeats (standingKey a) (standingKey b)

/-- The RANK() value of a standings row over the window `rows`. -/
def standingRankValue (rows : List SeasonStanding) (t : SeasonStanding) : Nat :=
  1 + (rows.filter (fun u => standingBeats u t)).length

/-- The RankedStandings CTE + UPDATE: every standings row of the league
receives its RANK() value. -/
def rankStandingRows (lid : Nat) (standings : List SeasonStanding) : List SeasonStanding :=
  let rows := standings.filter (fun t => decide (t.leagueId = lid))
  standings.map (fun t =>
    if t.leagueId = lid then { t with rank := some (standingRankValue rows t) } else t)

/-- The whole `calculateSeasonStandings` SQL batch. -/
def calculateSeasonStandings (lid : Nat) (db : DB) : DB :=
  let rows := leagueCompletedScores db lid
  { db with
    seasonStandings := rankStandingRows lid (upsertStandings lid rows db.seasonStandings) }

/-- Outcome surfaced to an HTTP caller of a calculate handler. The
`notFound` outcome exists to state the spec's claimed NotFound error;
neither handler in the source ever produces it (no existence check is
performed before calculating). -/
inductive CalcResponse (α : Type) where
  | ok (rows : List α)
  | notFound
  deriving DecidableEq, Repr

/-- The `calculateCompetitionScores` HTTP handler: runs the batch and
unconditionally answers success with the competition's Score rows
(ordering of the returned list is presentational and not modelled). -/
def calculateCompetitionScoresResponse (cid : Nat) (db : DB) : CalcResponse Score × DB :=
  let db' := calculateCompetitionScores cid db
  (CalcResponse.ok (db'.scores.filter (fun s => decide (s.competitionId = cid))), db')

/-- The `calculateSeasonStandings` HTTP handler: runs the batch and
unconditionally answers success with the league's standings rows. -/
def calculateSeasonStandingsResponse (lid : Nat) (db : DB) :
    CalcResponse SeasonStanding × DB :=
  let db' := calculateSeasonStandings lid db
  (CalcResponse.ok (db'.seasonStandings.filter (fun t => decide (t.leagueId = lid))), db')

/-- Modelled from the spec: `averagePointsPerWeek = totalPoints /
weeksParticipated`, the spec's stated definition of the per-week
average, to be compared with the source's `AVG(s.TotalPoints)`
(`ssAveragePoints`). -/
def specAveragePointsPerWeek (rows : List Score) (uid : Nat) : ℚ :=
  ssTotalPoints rows uid / (ssWeeksParticipated rows uid : ℚ)

/-! ### Basic facts about grading -/

theorem gradePick_competitionId (p : Pick) (g : Game) :
    (gradePick p g).competitionId = p.competitionId := rfl

theorem gradePick_userId (p : Pick) (g : Game) :
    (gradePick p g).userId = p.userId := rfl

theorem gradePick_gameId (p : Pick) (g : Game) :
    (gradePick p g).gameId = p.gameId := rfl

theorem gradeForCalc_competitionId (cid : Nat) (gs : List Game) (p : Pick) :
    (gradeForCalc cid gs p).competitionId = p.competitionId := by
  unfold gradeForCalc
  split
  · cases findGame gs p.gameId <;> rfl
  · rfl

theorem gradeForCalc_userId (cid : Nat) (gs : List Game) (p : Pick) :
    (gradeForCalc cid gs p).userId = p.userId := by
  unfold gradeForCalc
  split
  · cases findGame gs p.gameId <;> rfl
  · rfl

theorem gradeForCalc_gameId (cid : Nat) (gs : List Game) (p : Pick) :
    (gradeForCalc cid gs p).gameId = p.gameId := by
  unfold gradeForCalc
  split
  · cases findGame gs p.gameId <;> rfl
  · rfl

theorem gradePick_idem (p : Pick) (g : Game) :
    gradePick (gradePick p g) g = gradePick p g := rfl

theorem gradeForCalc_idem (cid : Nat) (gs : List Game) (p : Pick) :
    gradeForCalc cid gs (gradeForCalc cid gs p) = gradeForCalc cid gs p := by
  by_cases h : p.competitionId = cid
  · cases hfg : findGame gs p.gameId with
    | none => simp [gradeForCalc, h, hfg]
    | some g =>
        have h1 : gradeForCalc cid gs p = gradePick p g := by
          simp [gradeForCalc, h, hfg]
        rw [h1]
        have h2 : (gradePick p g).competitionId = cid := by rw [gradePick_competitionId, h]
        have h3 : findGame gs (gradePick p g).gameId = some g := by rw [gradePick_gameId, hfg]
        simp [gradeForCalc, h2, h3, gradePick_idem]
  · simp [gradeForCalc, h]

theorem calc_picks_eq (cid : Nat) (db : DB) :
    (calculateCompetitionScores cid db).picks = db.picks.map (gradeForCalc cid db.games) := rfl

/-- C1: for a pick of the requested competition whose game is Final with
both team scores present, score calculation sets the correctness flag to
true exactly when the picked team is the one with the strictly higher
score (a tie gives `some false`, not `none`), and sets pointsEarned to
the pick's confidence points when correct and to 0 otherwise. -/
theorem calc_grades_final_scored_pick (db : DB) (cid : Nat) (p : Pick) (g : Game)
    (hp : p ∈ db.picks) (hcid : p.competitionId = cid)
    (hg : findGame db.games p.gameId = some g)
    (hfin : g.status = GameStatus.Final)
    (hs as_ : Int) (hh : g.homeTeamScore = some hs) (ha : g.awayTeamScore = some as_) :
    (calculateCompetitionScores cid db).picks = db.picks.map (gradeForCalc cid db.games) ∧
    ((gradeForCalc cid db.games p).isCorrect = some true ↔
      ((p.pickedTeam = g.homeTeam ∧ as_ < hs) ∨ (p.pickedTeam = g.awayTeam ∧ hs < as_))) ∧
    ((gradeForCalc cid db.games p).isCorrect = some false ↔
      ¬((p.pickedTeam = g.homeTeam ∧ as_ < hs) ∨ (p.pickedTeam = g.awayTeam ∧ hs < as_))) ∧
    ((gradeForCalc cid db.games p).pointsEarned =
      if (p.pickedTeam = g.homeTeam ∧ as_ < hs) ∨ (p.pickedTeam = g.awayTeam ∧ hs < as_)
      then some (p.confidencePoints : ℚ) else some 0) := by
  have hgr : gradeForCalc cid db.games p = gradePick p g := by
    simp [gradeForCalc, hcid, hg]
  have hwin : pickWins p g =
      decide ((p.pickedTeam = g.homeTeam ∧ as_ < hs) ∨ (p.pickedTeam = g.awayTeam ∧ hs < as_)) := by
    simp [pickWins, optGt, hh, ha, Bool.and_comm]
  refine ⟨rfl, ?_, ?_, ?_⟩ <;>
    · rw [hgr]
      by_cases hw : (p.pickedTeam = g.homeTeam ∧ as_ < hs) ∨ (p.pickedTeam = g.awayTeam ∧ hs < as_) <;>
        simp [gradePick, hfin, hwin, hw]

/-! ### Concrete fixtures used by witnesses and counterexamples -/

/-- A Final game decided 24-17 for the home team. -/
def exFinalGame : Game :=
  { id := 10
    competitionId := 1
    homeTeam := "H"
    awayTeam := "A"
    homeTeamScore := some 24
    awayTeamScore := some 17
    status := GameStatus.Final }

/-- A Final game tied 14-14. -/
def exTieGame : Game :=
  { id := 11
    competitionId := 1
    homeTeam := "H"
    awayTeam := "A"
    homeTeamScore := some 14
    awayTeamScore := some 14
    status := GameStatus.Final }

/-- A Scheduled game with no scores yet. -/
def exSchedGame : Game :=
  { id := 12
    competitionId := 1
    homeTeam := "H"
    awayTeam := "A"
    homeTeamScore := none
    awayTeamScore := none
    status := GameStatus.Scheduled }

/-- A game already marked Final whose scores were never filled in. -/
def exNoScoreGame : Game :=
  { id := 13
    competitionId := 1
    homeTeam := "H"
    awayTeam := "A"
    homeTeamScore := none
    awayTeamScore := some 3
    status := GameStatus.Final }

/-- An ungraded pick. -/
def exPick (i gid uid : Nat) (team : String) (cp : Int) : Pick :=
  { id := i
    competitionId := 1
    gameId := gid
    userId := uid
    pickedTeam := team
    confidencePoints := cp
    isCorrect := none
    pointsEarned := none }

/-- The fixture competition (id 1, league 5). -/
def exCompetition : Competition :=
  { id := 1
    leagueId := 5
    status := CompetitionStatus.Active
    scoringCalculated := false }

/-- A small database: one competition, four games, picks of two users. -/
def exDB : DB :=
  { competitions := [exCompetition]
    games := [exFinalGame, exTieGame, exSchedGame, exNoScoreGame]
    picks := [exPick 1 10 100 "H" 7, exPick 2 10 101 "A" 7,
              exPick 3 11 100 "H" 3, exPick 4 12 100 "A" 2,
              exPick 5 13 101 "A" 9]
    scores := []
    seasonStandings := [] }

/-- Witness for C1 at a concrete input: the home pick on the 24-17 Final
game of `exDB` is graded correct with its 7 confidence points. -/
theorem calc_grades_final_scored_pick_witness :
    ((exPick 1 10 100 "H" 7 ∈ exDB.picks) ∧ (exPick 1 10 100 "H" 7).competitionId = 1 ∧
      findGame exDB.games (exPick 1 10 100 "H" 7).gameId = some exFinalGame ∧
      exFinalGame.status = GameStatus.Final ∧
      exFinalGame.homeTeamScore = some 24 ∧ exFinalGame.awayTeamScore = some 17) ∧
    ((calculateCompetitionScores 1 exDB).picks = exDB.picks.map (gradeForCalc 1 exDB.games) ∧
      ((gradeForCalc 1 exDB.games (exPick 1 10 100 "H" 7)).isCorrect = some true ↔
        (((exPick 1 10 100 "H" 7).pickedTeam = exFinalGame.homeTeam ∧ (17:Int) < 24) ∨
          ((exPick 1 10 100 "H" 7).pickedTeam = exFinalGame.awayTeam ∧ (24:Int) < 17))) ∧
      ((gradeForCalc 1 exDB.games (exPick 1 10 100 "H" 7)).isCorrect = some false ↔
        ¬(((exPick 1 10 100 "H" 7).pickedTeam = exFinalGame.homeTeam ∧ (17:Int) < 24) ∨
          ((exPick 1 10 100 "H" 7).pickedTeam = exFinalGame.awayTeam ∧ (24:Int) < 17))) ∧
      ((gradeForCalc 1 exDB.games (exPick 1 10 100 "H" 7)).pointsEarned =
        if ((exPick 1 10 100 "H" 7).pickedTeam = exFinalGame.homeTeam ∧ (17:Int) < 24) ∨
            ((exPick 1 10 100 "H" 7).pickedTeam = exFinalGame.awayTeam ∧ (24:Int) < 17)
        then some ((exPick 1 10 100 "H" 7).confidencePoints : ℚ) else some 0)) :=
  ⟨⟨by decide, by decide, by decide, by decide, by decide, by decide⟩,
    calc_grades_final_scored_pick exDB 1 (exPick 1 10 100 "H" 7) exFinalGame
      (by decide) (by decide) (by decide) (by decide) 24 17 (by decide) (by decide)⟩

/-- C2 counterexample: in `exDB`, the pick on the Scheduled game is left
with `isCorrect = none` but its `pointsEarned` is set to `some 0` — not
null — because the PointsEarned CASE expression ends in `ELSE 0`. -/
theorem nonfinal_pick_points_not_null_cex :
    exSchedGame.status = GameStatus.Scheduled ∧
    findGame exDB.games (exPick 4 12 100 "A" 2).gameId = some exSchedGame ∧
    (gradeForCalc 1 exDB.games (exPick 4 12 100 "A" 2)).isCorrect = none ∧
    (gradeForCalc 1 exDB.games (exPick 4 12 100 "A" 2)).pointsEarned = some 0 ∧
    (calculateCompetitionScores 1 exDB).picks.map (fun p => p.pointsEarned) =
      [some 7, some 0, some 0, some 0, some 0] ∧
    (some (0:ℚ) ≠ (none : Option ℚ)) := by
  refine ⟨by decide, by decide, by decide, by decide, ?_, by decide⟩
  decide

/-- C2 amended: for a pick of the requested competition whose game is
not Final, score calculation leaves `isCorrect = none` but sets
`pointsEarned = some 0` (zero, not null). -/
theorem calc_nonfinal_pick_isCorrect_null (db : DB) (cid : Nat) (p : Pick) (g : Game)
    (hp : p ∈ db.picks) (hcid : p.competitionId = cid)
    (hg : findGame db.games p.gameId = some g)
    (hnf : g.status ≠ GameStatus.Final) :
    (calculateCompetitionScores cid db).picks = db.picks.map (gradeForCalc cid db.games) ∧
    (gradeForCalc cid db.games p).isCorrect = none ∧
    (gradeForCalc cid db.games p).pointsEarned = some 0 := by
  have hgr : gradeForCalc cid db.games p = gradePick p g := by
    simp [gradeForCalc, hcid, hg]
  refine ⟨rfl, ?_, ?_⟩ <;> rw [hgr] <;> simp [gradePick, hnf]

/-- Witness for the amended C2 at a concrete input. -/
theorem calc_nonfinal_pick_isCorrect_null_witness :
    ((exPick 4 12 100 "A" 2 ∈ exDB.picks) ∧ (exPick 4 12 100 "A" 2).competitionId = 1 ∧
      findGame exDB.games (exPick 4 12 100 "A" 2).gameId = some exSchedGame ∧
      exSchedGame.status ≠ GameStatus.Final) ∧
    ((calculateCompetitionScores 1 exDB).picks = exDB.picks.map (gradeForCalc 1 exDB.games) ∧
      (gradeForCalc 1 exDB.games (exPick 4 12 100 "A" 2)).isCorrect = none ∧
      (gradeForCalc 1 exDB.games (exPick 4 12 100 "A" 2)).pointsEarned = some 0) :=
  ⟨⟨by decide, by decide, by decide, by decide⟩,
    calc_nonfinal_pick_isCorrect_null exDB 1 (exPick 4 12 100 "A" 2) exSchedGame
      (by decide) (by decide) (by decide) (by decide)⟩

/-- C9: a pick whose game is Final but has a missing team score is
graded as a loss — `isCorrect = some false`, `pointsEarned = some 0` —
because the NULL score makes both strict comparisons UNKNOWN, so only
the bare `WHEN g.Status = 'Final' THEN 0` arm fires. -/
theorem calc_final_missing_score_graded_loss (db : DB) (cid : Nat) (p : Pick) (g : Game)
    (hp : p ∈ db.picks) (hcid : p.competitionId = cid)
    (hg : findGame db.games p.gameId = some g)
    (hfin : g.status = GameStatus.Final)
    (hmiss : g.homeTeamScore = none ∨ g.awayTeamScore = none) :
    (calculateCompetitionScores cid db).picks = db.picks.map (gradeForCalc cid db.games) ∧
    (gradeForCalc cid db.games p).isCorrect = some false ∧
    (gradeForCalc cid db.games p).pointsEarned = some 0 := by
  have hgr : gradeForCalc cid db.games p = gradePick p g := by
    simp [gradeForCalc, hcid, hg]
  have hwin : pickWins p g = false := by
    rcases hmiss with hm | hm <;>
      · unfold pickWins
        rw [hm]
        cases hhs : g.homeTeamScore <;> cases has : g.awayTeamScore <;>
          simp [optGt]
  refine ⟨rfl, ?_, ?_⟩ <;> rw [hgr] <;> simp [gradePick, hfin, hwin]

/-- Witness for C9 at a concrete input: the pick on the Final game with
a missing home score is graded `some false` with zero points. -/
theorem calc_final_missing_score_graded_loss_witness :
    ((exPick 5 13 101 "A" 9 ∈ exDB.picks) ∧ (exPick 5 13 101 "A" 9).competitionId = 1 ∧
      findGame exDB.games (exPick 5 13 101 "A" 9).gameId = some exNoScoreGame ∧
      exNoScoreGame.status = GameStatus.Final ∧
      (exNoScoreGame.homeTeamScore = none ∨ exNoScoreGame.awayTeamScore = none)) ∧
    ((calculateCompetitionScores 1 exDB).picks = exDB.picks.map (gradeForCalc 1 exDB.games) ∧
      (gradeForCalc 1 exDB.games (exPick 5 13 101 "A" 9)).isCorrect = some false ∧
      (gradeForCalc 1 exDB.games (exPick 5 13 101 "A" 9)).pointsEarned = some 0) :=
  ⟨⟨by decide, by decide, by decide, by decide, by decide⟩,
    calc_final_missing_score_graded_loss exDB 1 (exPick 5 13 101 "A" 9) exNoScoreGame
      (by decide) (by decide) (by decide) (by decide) (Or.inl (by decide))⟩

/-! ### Ranking lemmas -/

theorem keyBeats_iff (a b : ℚ × Nat) :
    keyBeats a b = true ↔ b.1 < a.1 ∨ (a.1 = b.1 ∧ b.2 < a.2) := by
  simp [keyBeats]

theorem keyBeats_trans {a b c : ℚ × Nat}
    (h1 : keyBeats a b = true) (h2 : keyBeats b c = true) : keyBeats a c = true := by
  rw [keyBeats_iff] at h1 h2 ⊢
  rcases h1 with h1 | ⟨h1e, h1l⟩ <;> rcases h2 with h2 | ⟨h2e, h2l⟩
  · exact Or.inl (h2.trans h1)
  · exact Or.inl (h2e ▸ h1)
  · exact Or.inl (h1e ▸ h2)
  · exact Or.inr ⟨h1e.trans h2e, h2l.trans h1l⟩

theorem keyBeats_irrefl (a : ℚ × Nat) : keyBeats a a = false := by
  simp [keyBeats]

theorem keyBeats_congr {a b : ℚ × Nat} (c : ℚ × Nat) (h : a = b) :
    keyBeats a c = keyBeats b c := by rw [h]

/-- Counting with a disjunction of pointwise-disjoint predicates splits. -/
theorem length_filter_or_disjoint {α : Type} (l : List α) (p q : α → Bool)
    (hdis : ∀ x ∈ l, ¬(p x = true ∧ q x = true)) :
    (l.filter (fun x => p x || q x)).length = (l.filter p).length + (l.filter q).length := by
  induction l with
  | nil => rfl
  | cons a l ih =>
      have ha := hdis a (List.mem_cons_self a l)
      have ih' := ih (fun x hx => hdis x (List.mem_cons_of_mem a hx))
      cases hpa : p a <;> cases hqa : q a
      · simp [List.filter_cons, hpa, hqa, ih']
      · simp [List.filter_cons, hpa, hqa, ih']
        omega
      · simp [List.filter_cons, hpa, hqa, ih']
        omega
      · exact absurd ⟨hpa, hqa⟩ ha

/-- The generic tie-then-skip law of RANK(): if `s` strictly precedes
`t` and no row key lies strictly between them, the count of rows
strictly preceding `t` is the count strictly preceding `s` plus the
size of `s`'s tie group. -/
theorem rank_count_skip {α : Type} (key : α → ℚ × Nat) (rows : List α) (s t : α)
    (hst : keyBeats (key s) (key t) = true)
    (hgap : ∀ u ∈ rows, keyBeats (key u) (key t) = true →
      keyBeats (key u) (key s) = true ∨ key u = key s) :
    (rows.filter (fun u => keyBeats (key u) (key t))).length
      = (rows.filter (fun u => keyBeats (key u) (key s))).length
        + (rows.filter (fun u => decide (key u = key s))).length := by
  have hcongr : rows.filter (fun u => keyBeats (key u) (key t))
      = rows.filter (fun u => keyBeats (key u) (key s) || decide (key u = key s)) := by
    apply List.filter_congr
    intro u hu
    cases hut : keyBeats (key u) (key t)
    · symm
      rw [Bool.or_eq_false_iff]
      constructor
      · cases hus : keyBeats (key u) (key s)
        · rfl
        · exact absurd (keyBeats_trans hus hst) (by simp [hut])
      · rw [decide_eq_false_iff_not]
        intro he
        rw [keyBeats_congr (key t) he] at hut
        simp [hst] at hut
    · symm
      rw [Bool.or_eq_true]
      rcases hgap u hu hut with h | h
      · exact Or.inl h
      · exact Or.inr (by simp [h])
  rw [hcongr]
  apply length_filter_or_disjoint
  intro u _ ⟨hbeat, heq⟩
  rw [decide_eq_true_eq] at heq
  rw [keyBeats_congr (key s) heq, keyBeats_irrefl] at hbeat
  exact Bool.false_ne_true hbeat

/-- Score rows used in the C4 ranking-law example: (u1,100,5),
(u2,100,5), (u3,90,6). -/
def c4Row (uid : Nat) (tp : ℚ) (cp : Nat) : Score :=
  { competitionId := 1
    userId := uid
    totalPoints := tp
    correctPicks := cp
    totalPicks := 10
    rank := none }

/-- The input Score rows of the spec's ranking-law test property. -/
def c4Rows : List Score := [c4Row 1 100 5, c4Row 2 100 5, c4Row 3 90 6]

/-- C4: both RANK() computations implement standard competition ranking
on (totalPoints desc, correctPicks desc): rows with equal keys get the
same rank, the next distinct key's rank skips by the tie-group size,
and the spec's concrete instance [(u1,100,5),(u2,100,5),(u3,90,6)]
receives ranks u1=1, u2=1, u3=3. -/
theorem rank_standard_competition :
    (∀ (rows : List Score) (s t : Score), scoreKey s = scoreKey t →
      scoreRankValue rows s = scoreRankValue rows t) ∧
    (∀ (rows : List Score) (s t : Score), scoreBeats s t = true →
      (∀ u ∈ rows, scoreBeats u t = true → scoreBeats u s = true ∨ scoreKey u = scoreKey s) →
      scoreRankValue rows t = scoreRankValue rows s
        + (rows.filter (fun u => decide (scoreKey u = scoreKey s))).length) ∧
    (∀ (rows : List SeasonStanding) (s t : SeasonStanding), standingKey s = standingKey t →
      standingRankValue rows s = standingRankValue rows t) ∧
    (∀ (rows : List SeasonStanding) (s t : SeasonStanding), standingBeats s t = true →
      (∀ u ∈ rows, standingBeats u t = true →
        standingBeats u s = true ∨ standingKey u = standingKey s) →
      standingRankValue rows t = standingRankValue rows s
        + (rows.filter (fun u => decide (standingKey u = standingKey s))).length) ∧
    (rankScoreRows 1 c4Rows).map (fun s => (s.userId, s.rank)) =
      [(1, some 1), (2, some 1), (3, some 3)] := by
  refine ⟨?_, ?_, ?_, ?_, by decide⟩
  · intro rows s t h
    unfold scoreRankValue
    congr 1
    apply congrArg
    apply List.filter_congr
    intro u _
    unfold scoreBeats
    rw [h]
  · intro rows s t hst hgap
    unfold scoreRankValue
    have := rank_count_skip scoreKey rows s t hst hgap
    simp only [scoreBeats] at *
    omega
  · intro rows s t h
    unfold standingRankValue
    congr 1
    apply congrArg
    apply List.filter_congr
    intro u _
    unfold standingBeats
    rw [h]
  · intro rows s t hst hgap
    unfold standingRankValue
    have := rank_count_skip standingKey rows s t hst hgap
    simp only [standingBeats] at *
    omega

/-- Witness for C4: the tie-then-skip part applied to the concrete rows
(u1 at rank 1, tie group of size 2, u3 next with rank 3). -/
theorem rank_standard_competition_witness :
    (scoreBeats (c4Row 1 100 5) (c4Row 3 90 6) = true) ∧
    scoreRankValue c4Rows (c4Row 3 90 6) = scoreRankValue c4Rows (c4Row 1 100 5)
      + (c4Rows.filter (fun u => decide (scoreKey u = scoreKey (c4Row 1 100 5)))).length :=
  ⟨by decide,
    rank_standard_competition.2.1 c4Rows (c4Row 1 100 5) (c4Row 3 90 6) (by decide) (by decide)⟩

/-! ### Season-standings claims -/

/-- C7: under the one-Score-row-per-(competition,user) invariant
(the user's rows carry pairwise distinct competition ids), the source's
`AVG(s.TotalPoints)` equals the spec's `totalPoints / weeksParticipated`
for every user with at least one participated week, and it is exactly
this average that the standings upsert writes. -/
theorem averagePointsPerWeek_refines_spec (rows : List Score) (uid : Nat)
    (hnd : ((userScoreRows rows uid).map (fun s => s.competitionId)).Nodup)
    (hw : 1 ≤ ssWeeksParticipated rows uid) :
    ssAveragePoints rows uid = specAveragePointsPerWeek rows uid ∧
    (∀ lid, (newStandingRow lid rows uid).averagePointsPerWeek =
      some (ssAveragePoints rows uid)) := by
  refine ⟨?_, fun _ => rfl⟩
  have hlen : ssWeeksParticipated rows uid = (userScoreRows rows uid).length := by
    unfold ssWeeksParticipated
    rw [List.dedup_eq_self.mpr hnd, List.length_map]
  unfold ssAveragePoints specAveragePointsPerWeek
  rw [hlen]

/-- Two Completed-competition Score rows of one user, for the C7 witness. -/
def c7Rows : List Score :=
  [ { competitionId := 1
      userId := 100
      totalPoints := 20
      correctPicks := 3
      totalPicks := 10
      rank := some 1 },
    { competitionId := 2
      userId := 100
      totalPoints := 12
      correctPicks := 2
      totalPicks := 10
      rank := some 2 } ]

/-- Witness for C7: over two weeks totalling 32 points, both
definitions give 16 points per week. -/
theorem averagePointsPerWeek_refines_spec_witness :
    (((userScoreRows c7Rows 100).map (fun s => s.competitionId)).Nodup ∧
      1 ≤ ssWeeksParticipated c7Rows 100) ∧
    (ssAveragePoints c7Rows 100 = specAveragePointsPerWeek c7Rows 100 ∧
      (∀ lid, (newStandingRow lid c7Rows 100).averagePointsPerWeek =
        some (ssAveragePoints c7Rows 100))) :=
  ⟨⟨by decide, by decide⟩,
    averagePointsPerWeek_refines_spec c7Rows 100 (by decide) (by decide)⟩

/-- C6: a Score row whose competition is not Completed contributes
nothing to a league's season standings: adding such a row to the
database leaves the aggregation source and the entire computed
SeasonStandings table (totals, weeksParticipated and ranks) unchanged. -/
theorem season_standings_ignore_noncompleted (db : DB) (lid : Nat) (s : Score)
    (c : Competition)
    (hc : findCompetition db.competitions s.competitionId = some c)
    (hst : c.status ≠ CompetitionStatus.Completed) :
    leagueCompletedScores { db with scores := s :: db.scores } lid
      = leagueCompletedScores db lid ∧
    (calculateSeasonStandings lid { db with scores := s :: db.scores }).seasonStandings
      = (calculateSeasonStandings lid db).seasonStandings := by
  have hrows : leagueCompletedScores { db with scores := s :: db.scores } lid
      = leagueCompletedScores db lid := by
    unfold leagueCompletedScores
    show List.filter _ (s :: db.scores) = _
    rw [List.filter_cons_of_neg]
    simp only [hc]
    simp [hst]
  refine ⟨hrows, ?_⟩
  unfold calculateSeasonStandings
  rw [hrows]

/-- Database for the C6/C8 witnesses: league 5 has a Completed
competition (id 1) and an Active one (id 2), each with a graded Score
row of user 100. -/
def c6DB : DB :=
  { competitions := [{ id := 1
                       leagueId := 5
                       status := CompetitionStatus.Completed
                       scoringCalculated := true },
                     { id := 2
                       leagueId := 5
                       status := CompetitionStatus.Active
                       scoringCalculated := true }]
    games := []
    picks := []
    scores := [{ competitionId := 1
                 userId := 100
                 totalPoints := 20
                 correctPicks := 3
                 totalPicks := 10
                 rank := some 1 }]
    seasonStandings := [] }

/-- The fully graded Score row of the Active (not Completed)
competition 2, used in the C6 witness. -/
def c6ActiveScore : Score :=
  { competitionId := 2
    userId := 100
    totalPoints := 12
    correctPicks := 2
    totalPicks := 10
    rank := some 1 }

/-- Witness for C6: adding the Active competition's Score row to the
database changes nothing in league 5's computed standings. -/
theorem season_standings_ignore_noncompleted_witness :
    (findCompetition c6DB.competitions c6ActiveScore.competitionId =
        some { id := 2
               leagueId := 5
               status := CompetitionStatus.Active
               scoringCalculated := true } ∧
      CompetitionStatus.Active ≠ CompetitionStatus.Completed) ∧
    (leagueCompletedScores { c6DB with scores := c6ActiveScore :: c6DB.scores } 5
        = leagueCompletedScores c6DB 5 ∧
      (calculateSeasonStandings 5 { c6DB with scores := c6ActiveScore :: c6DB.scores }).seasonStandings
        = (calculateSeasonStandings 5 c6DB).seasonStandings) :=
  ⟨⟨by decide, by decide⟩,
    season_standings_ignore_noncompleted c6DB 5 c6ActiveScore
      { id := 2
        leagueId := 5
        status := CompetitionStatus.Active
        scoringCalculated := true }
      (by decide) (by decide)⟩

/-! ### NotFound behaviour of the two calculate handlers -/

/-- The empty database: no competition and no league exists at all. -/
def emptyDB : DB :=
  { competitions := []
    games := []
    picks := []
    scores := []
    seasonStandings := [] }

/-- C8 counterexample: on the empty database — where competition 1 and
league 1 match no record — both calculate handlers answer a success
result with an empty leaderboard; neither surfaces a NotFound failure.
(Neither handler looks the identifier up before running its SQL.) -/
theorem nonexistent_id_calc_success_cex :
    emptyDB.competitions = [] ∧
    (calculateCompetitionScoresResponse 1 emptyDB).fst = CalcResponse.ok [] ∧
    (calculateCompetitionScoresResponse 1 emptyDB).fst ≠ CalcResponse.notFound ∧
    (calculateSeasonStandingsResponse 1 emptyDB).fst = CalcResponse.ok [] ∧
    (calculateSeasonStandingsResponse 1 emptyDB).fst ≠ CalcResponse.notFound := by
  decide

/-- C8 amended: for a competition (respectively league) identifier that
matches no record — hence, by referential integrity, no pick, score,
competition or standings row references it — the handler performs no
write at all and answers success with an empty leaderboard; NotFound is
never surfaced. -/
theorem nonexistent_id_calc_no_write_success (db : DB) (cid lid : Nat)
    (hcids : ∀ c ∈ db.competitions, c.id ≠ cid)
    (hpicks : ∀ p ∈ db.picks, p.competitionId ≠ cid)
    (hscores : ∀ s ∈ db.scores, s.competitionId ≠ cid)
    (hleague : ∀ c ∈ db.competitions, c.leagueId ≠ lid)
    (hstand : ∀ t ∈ db.seasonStandings, t.leagueId ≠ lid) :
    calculateCompetitionScoresResponse cid db = (CalcResponse.ok [], db) ∧
    calculateSeasonStandingsResponse lid db = (CalcResponse.ok [], db) := by
  have hgp : db.picks.map (gradeForCalc cid db.games) = db.picks := by
    have h : ∀ p ∈ db.picks, gradeForCalc cid db.games p = id p := fun p hp' => by
      simp [gradeForCalc, hpicks p hp']
    rw [List.map_congr_left h, List.map_id]
  have husers : pickUsers db.picks cid = [] := by
    have h : compPicks db.picks cid = [] := by
      simp only [compPicks, List.filter_eq_nil_iff, decide_eq_true_eq]
      exact hpicks
    simp [pickUsers, h]
  have hup : upsertScores cid db.picks db.scores = db.scores := by
    unfold upsertScores
    rw [husers]
    show db.scores.map (refreshScoreRow cid db.picks [])
        ++ (List.filter (fun u => !hasScoreRow db.scores cid u) []).map (newScoreRow cid db.picks)
      = db.scores
    have h : ∀ s ∈ db.scores, refreshScoreRow cid db.picks [] s = id s := fun s _ => by
      simp [refreshScoreRow]
    rw [List.map_congr_left h, List.map_id]
    simp
  have hrank : rankScoreRows cid db.scores = db.scores := by
    unfold rankScoreRows
    have h : ∀ s ∈ db.scores,
        (if s.competitionId = cid
          then { s with rank := some (scoreRankValue
            (db.scores.filter (fun t => decide (t.competitionId = cid))) s) }
          else s) = id s := fun s hs' => by
      simp [hscores s hs']
    rw [List.map_congr_left h, List.map_id]
  have hcomps : db.competitions.map (markScored cid) = db.competitions := by
    have h : ∀ c ∈ db.competitions, markScored cid c = id c := fun c hc' => by
      simp [markScored, hcids c hc']
    rw [List.map_congr_left h, List.map_id]
  have hcalc : calculateCompetitionScores cid db = db := by
    simp only [calculateCompetitionScores]
    rw [hgp, hup, hrank, hcomps]
  have hscorefilter : db.scores.filter (fun s => decide (s.competitionId = cid)) = [] := by
    simp only [List.filter_eq_nil_iff, decide_eq_true_eq]
    exact hscores
  have hrows : leagueCompletedScores db lid = [] := by
    unfold leagueCompletedScores
    rw [List.filter_eq_nil_iff]
    intro s _
    cases hfc : findCompetition db.competitions s.competitionId with
    | none => simp
    | some c =>
        have hcmem : c ∈ db.competitions := by
          have := List.find?_some hfc
          exact List.mem_of_find?_eq_some hfc
        simp [hleague c hcmem]
  have hupst : upsertStandings lid [] db.seasonStandings = db.seasonStandings := by
    unfold upsertStandings
    show db.seasonStandings.map (refreshStandingRow lid [] (standingUsers []))
        ++ (List.filter (fun u => !hasStandingRow db.seasonStandings lid u)
            (standingUsers [])).map (newStandingRow lid [])
      = db.seasonStandings
    have h : ∀ t ∈ db.seasonStandings,
        refreshStandingRow lid [] (standingUsers []) t = id t := fun t _ => by
      simp [refreshStandingRow, standingUsers]
    rw [List.map_congr_left h, List.map_id]
    simp [standingUsers]
  have hrankst : rankStandingRows lid db.seasonStandings = db.seasonStandings := by
    unfold rankStandingRows
    have h : ∀ t ∈ db.seasonStandings,
        (if t.leagueId = lid
          then { t with rank := some (standingRankValue
            (db.seasonStandings.filter (fun u => decide (u.leagueId = lid))) t) }
          else t) = id t := fun t ht' => by
      simp [hstand t ht']
    rw [List.map_congr_left h, List.map_id]
  have hcalcs : calculateSeasonStandings lid db = db := by
    simp only [calculateSeasonStandings]
    rw [hrows, hupst, hrankst]
  have hstfilter : db.seasonStandings.filter (fun t => decide (t.leagueId = lid)) = [] := by
    simp only [List.filter_eq_nil_iff, decide_eq_true_eq]
    exact hstand
  constructor
  · simp only [calculateCompetitionScoresResponse, hcalc, hscorefilter]
  · simp only [calculateSeasonStandingsResponse, hcalcs, hstfilter]

/-- Witness for the amended C8: competition 9 and league 9 match
nothing in `c6DB`; both handlers answer success with an empty list and
leave the database untouched. -/
theorem nonexistent_id_calc_no_write_success_witness :
    ((∀ c ∈ c6DB.competitions, c.id ≠ 9) ∧ (∀ p ∈ c6DB.picks, p.competitionId ≠ 9) ∧
      (∀ s ∈ c6DB.scores, s.competitionId ≠ 9) ∧
      (∀ c ∈ c6DB.competitions, c.leagueId ≠ 9) ∧
      (∀ t ∈ c6DB.seasonStandings, t.leagueId ≠ 9)) ∧
    (calculateCompetitionScoresResponse 9 c6DB = (CalcResponse.ok [], c6DB) ∧
      calculateSeasonStandingsResponse 9 c6DB = (CalcResponse.ok [], c6DB)) :=
  ⟨⟨by decide, by decide, by decide, by decide, by decide⟩,
    nonexistent_id_calc_no_write_success c6DB 9 9
      (by decide) (by decide) (by decide) (by decide) (by decide)⟩

/-! ### Stale Score rows (C10) -/

/-- C10: recalculation never deletes Score rows. A Score row of the
competition whose user no longer has any pick in it is not touched by
the upsert — its totals stay as they were — and it still takes part in
the ranking, receiving a rank. -/
theorem stale_score_rows_persist (db : DB) (cid : Nat) (s : Score)
    (hs : s ∈ db.scores) (hcid : s.competitionId = cid)
    (hnp : ∀ p ∈ db.picks, ¬(p.competitionId = cid ∧ p.userId = s.userId)) :
    db.scores.length ≤ (calculateCompetitionScores cid db).scores.length ∧
    ∃ r : Nat, { s with rank := some r } ∈ (calculateCompetitionScores cid db).scores := by
  have hout : (calculateCompetitionScores cid db).scores
      = rankScoreRows cid
          (upsertScores cid (db.picks.map (gradeForCalc cid db.games)) db.scores) := rfl
  set gp := db.picks.map (gradeForCalc cid db.games) with hgpdef
  have hu : s.userId ∉ pickUsers gp cid := by
    intro hmem
    unfold pickUsers compPicks at hmem
    rcases List.mem_map.mp (List.mem_dedup.mp hmem) with ⟨p', hp', hup⟩
    have h1 := List.mem_filter.mp hp'
    rcases List.mem_map.mp h1.1 with ⟨p0, hp0, hpeq⟩
    apply hnp p0 hp0
    constructor
    · have h2 := h1.2
      rw [decide_eq_true_eq] at h2
      rw [← gradeForCalc_competitionId cid db.games p0, hpeq]
      exact h2
    · rw [← gradeForCalc_userId cid db.games p0, hpeq, hup]
  have hrefresh : refreshScoreRow cid gp (pickUsers gp cid) s = s := by
    unfold refreshScoreRow
    rw [if_neg]
    rintro ⟨_, h2⟩
    exact hu h2
  have hsU : s ∈ upsertScores cid gp db.scores := by
    unfold upsertScores
    show s ∈ db.scores.map (refreshScoreRow cid gp (pickUsers gp cid))
        ++ (List.filter (fun u => !hasScoreRow db.scores cid u)
            (pickUsers gp cid)).map (newScoreRow cid gp)
    apply List.mem_append_left
    have hmm := List.mem_map_of_mem (refreshScoreRow cid gp (pickUsers gp cid)) hs
    rwa [hrefresh] at hmm
  constructor
  · rw [hout]
    have h1 : (rankScoreRows cid (upsertScores cid gp db.scores)).length
        = (upsertScores cid gp db.scores).length := by
      simp [rankScoreRows]
    have h2 : db.scores.length ≤ (upsertScores cid gp db.scores).length := by
      simp [upsertScores]
    omega
  · refine ⟨scoreRankValue ((upsertScores cid gp db.scores).filter
      (fun t => decide (t.competitionId = cid))) s, ?_⟩
    rw [hout]
    unfold rankScoreRows
    show _ ∈ (upsertScores cid gp db.scores).map (fun x =>
      if x.competitionId = cid
      then { x with rank := some (scoreRankValue ((upsertScores cid gp db.scores).filter
        (fun t => decide (t.competitionId = cid))) x) }
      else x)
    have hmm := List.mem_map_of_mem (fun x : Score =>
      if x.competitionId = cid
      then { x with rank := some (scoreRankValue ((upsertScores cid gp db.scores).filter
        (fun t => decide (t.competitionId = cid))) x) }
      else x) hsU
    simpa [if_pos hcid] using hmm

/-- Database for the C10 witness: competition 1 has one pick of user
100 and a stale Score row of user 200, who has no pick. -/
def c10DB : DB :=
  { competitions := [exCompetition]
    games := [exFinalGame]
    picks := [exPick 1 10 100 "H" 7]
    scores := [{ competitionId := 1
                 userId := 200
                 totalPoints := 42
                 correctPicks := 4
                 totalPicks := 5
                 rank := some 1 }]
    seasonStandings := [] }

/-- Witness for C10: user 200's stale row (42 points) survives the
recalculation untouched and is ranked. -/
theorem stale_score_rows_persist_witness :
    (({ competitionId := 1
        userId := 200
        totalPoints := 42
        correctPicks := 4
        totalPicks := 5
        rank := some 1 } : Score) ∈ c10DB.scores ∧
      (({ competitionId := 1
          userId := 200
          totalPoints := 42
          correctPicks := 4
          totalPicks := 5
          rank := some 1 } : Score).competitionId = 1) ∧
      (∀ p ∈ c10DB.picks, ¬(p.competitionId = 1 ∧ p.userId = 200))) ∧
    (c10DB.scores.length ≤ (calculateCompetitionScores 1 c10DB).scores.length ∧
      ∃ r : Nat,
        ({ competitionId := 1
           userId := 200
           totalPoints := 42
           correctPicks := 4
           totalPicks := 5
           rank := some r } : Score) ∈ (calculateCompetitionScores 1 c10DB).scores) :=
  ⟨⟨by decide, by decide, by decide⟩,
    stale_score_rows_persist c10DB 1
      { competitionId := 1
        userId := 200
        totalPoints := 42
        correctPicks := 4
        totalPicks := 5
        rank := some 1 }
      (by decide) (by decide) (by decide)⟩

/-! ### List helpers for the aggregation claim -/

theorem sum_map_filter_split {α : Type} (l : List α) (p : α → Bool) (f : α → ℚ) :
    ((l.filter p).map f).sum + ((l.filter (fun x => !(p x))).map f).sum = (l.map f).sum := by
  induction l with
  | nil => simp
  | cons a l ih =>
      cases hpa : p a <;>
        · simp only [List.filter_cons, hpa, Bool.not_false, Bool.not_true, if_pos, if_neg,
            Bool.false_eq_true, Bool.true_eq_false, ite_true, ite_false, List.map_cons,
            List.sum_cons]
          rw [← ih]
          ring

theorem filter_filter_of_imp {α : Type} (l : List α) (p q : α → Bool)
    (h : ∀ x ∈ l, p x = true → q x = true) :
    (l.filter q).filter p = l.filter p := by
  induction l with
  | nil => rfl
  | cons a l ih =>
      have ih' := ih (fun x hx => h x (List.mem_cons_of_mem a hx))
      cases hpa : p a <;> cases hqa : q a <;>
        simp only [List.filter_cons, hpa, hqa, Bool.false_eq_true, Bool.true_eq_false,
          ite_true, ite_false, ih']
      exact absurd (h a (List.mem_cons_self a l) hpa) (by simp [hqa])

/-- Summing group totals over the distinct keys recovers the total sum. -/
theorem sum_over_groups {α : Type} (key : α → Nat) (f : α → ℚ) :
    ∀ (us : List Nat) (l : List α), us.Nodup → (∀ x ∈ l, key x ∈ us) →
      (us.map (fun u => ((l.filter (fun x => decide (key x = u))).map f).sum)).sum
        = (l.map f).sum := by
  intro us
  induction us with
  | nil =>
      intro l _ hcov
      have hl : l = [] :=
        List.eq_nil_iff_forall_not_mem.mpr (fun x hx => List.not_mem_nil _ (hcov x hx))
      subst hl
      simp
  | cons u us ih =>
      intro l hnd hcov
      have hnd' := List.nodup_cons.mp hnd
      have hterm : ∀ u' ∈ us,
          ((l.filter (fun x => decide (key x = u'))).map f).sum
            = (((l.filter (fun x => !(decide (key x = u)))).filter
                (fun x => decide (key x = u'))).map f).sum := by
        intro u' hu'
        rw [filter_filter_of_imp]
        intro x _ hx
        rw [decide_eq_true_eq] at hx
        simp only [Bool.not_eq_eq_eq_not, Bool.not_true, decide_eq_false_iff_not]
        intro hxe
        exact hnd'.1 ((hxe.symm.trans hx) ▸ hu')
      have hcov' : ∀ x ∈ l.filter (fun x => !(decide (key x = u))), key x ∈ us := by
        intro x hx
        have hx' := List.mem_filter.mp hx
        rcases List.mem_cons.mp (hcov x hx'.1) with h | h
        · exact absurd hx'.2 (by simp [h])
        · exact h
      rw [List.map_cons, List.sum_cons, List.map_congr_left hterm,
        ih (l.filter (fun x => !(decide (key x = u)))) hnd'.2 hcov',
        sum_map_filter_split]

theorem countP_map_eq {α β : Type} (f : α → β) (l : List α) (p : β → Bool) (q : α → Bool)
    (h : ∀ x ∈ l, p (f x) = q x) : (l.map f).countP p = l.countP q := by
  induction l with
  | nil => rfl
  | cons a l ih =>
      rw [List.map_cons, List.countP_cons, List.countP_cons, h a (List.mem_cons_self a l),
        ih (fun x hx => h x (List.mem_cons_of_mem a hx))]

theorem nodup_countP_eq_one (l : List Nat) (u : Nat) (hnd : l.Nodup) (hu : u ∈ l) :
    l.countP (fun x => decide (x = u)) = 1 := by
  induction l with
  | nil => cases hu
  | cons a l ih =>
      rw [List.countP_cons]
      have hnd' := List.nodup_cons.mp hnd
      rcases List.mem_cons.mp hu with heq | hmem
      · subst heq
        have h0 : l.countP (fun x => decide (x = u)) = 0 := by
          rw [List.countP_eq_zero]
          intro x hx
          simp only [decide_eq_true_eq]
          intro hxe
          exact hnd'.1 (hxe ▸ hx)
        simp [h0]
      · have hne : ¬(a = u) := fun hae => hnd'.1 (hae ▸ hmem)
        rw [ih hnd'.2 hmem]
        simp [hne]

/-- At most one Scores row per (competition, user) under the schema's
UQ_Scores_CompetitionUser uniqueness constraint. -/
theorem countP_pair_le_one (l : List Score) (cid u : Nat)
    (hnd : l.Pairwise (fun a b => ¬(a.competitionId = b.competitionId ∧ a.userId = b.userId))) :
    l.countP (fun s => decide (s.competitionId = cid ∧ s.userId = u)) ≤ 1 := by
  induction l with
  | nil => simp
  | cons a l ih =>
      rw [List.countP_cons]
      have hp := List.pairwise_cons.mp hnd
      by_cases ha : a.competitionId = cid ∧ a.userId = u
      · have h0 : l.countP (fun s => decide (s.competitionId = cid ∧ s.userId = u)) = 0 := by
          rw [List.countP_eq_zero]
          intro b hb
          simp only [decide_eq_true_eq]
          rintro ⟨hb1, hb2⟩
          exact hp.1 b hb ⟨ha.1.trans hb1.symm, ha.2.trans hb2.symm⟩
        rw [h0]
        simp [ha.1, ha.2]
      · simp only [ha, decide_eq_true_eq, if_neg, decide_eq_false ha, Bool.false_eq_true,
          ite_false, Nat.add_zero]
        exact ih hp.2

/-! ### Unfolding equations and field-preservation facts -/

theorem upsertScores_eq (cid : Nat) (picks : List Pick) (scores : List Score) :
    upsertScores cid picks scores
      = scores.map (refreshScoreRow cid picks (pickUsers picks cid))
        ++ ((pickUsers picks cid).filter
            (fun u => !hasScoreRow scores cid u)).map (newScoreRow cid picks) := rfl

theorem rankScoreRows_eq (cid : Nat) (scores : List Score) :
    rankScoreRows cid scores
      = scores.map (fun s =>
          if s.competitionId = cid
          then { s with rank := some (scoreRankValue
            (scores.filter (fun t => decide (t.competitionId = cid))) s) }
          else s) := rfl

theorem calc_scores_eq (cid : Nat) (db : DB) :
    (calculateCompetitionScores cid db).scores
      = rankScoreRows cid
          (upsertScores cid (db.picks.map (gradeForCalc cid db.games)) db.scores) := rfl

theorem refreshScoreRow_competitionId (cid : Nat) (picks : List Pick) (users : List Nat)
    (s : Score) : (refreshScoreRow cid picks users s).competitionId = s.competitionId := by
  unfold refreshScoreRow
  split <;> rfl

theorem refreshScoreRow_userId (cid : Nat) (picks : List Pick) (users : List Nat)
    (s : Score) : (refreshScoreRow cid picks users s).userId = s.userId := by
  unfold refreshScoreRow
  split <;> rfl

/-- C5: under the schema's one-Score-row-per-(competition,user)
constraint, after score calculation every user with at least one pick
in the competition has exactly one Score row, holding the sum of their
picks' pointsEarned (null as 0), their correct-pick count and their
pick count; and the per-user totals over all such users sum to the
total pointsEarned over all of the competition's picks. -/
theorem score_rows_aggregate_user_picks (db : DB) (cid : Nat)
    (huniq : db.scores.Pairwise
      (fun a b => ¬(a.competitionId = b.competitionId ∧ a.userId = b.userId))) :
    (∀ u ∈ pickUsers (calculateCompetitionScores cid db).picks cid,
      ((calculateCompetitionScores cid db).scores.countP
          (fun s => decide (s.competitionId = cid ∧ s.userId = u)) = 1) ∧
      ∃ s' ∈ (calculateCompetitionScores cid db).scores,
        s'.competitionId = cid ∧ s'.userId = u ∧
        s'.totalPoints = aggTotalPoints (calculateCompetitionScores cid db).picks cid u ∧
        s'.correctPicks = aggCorrectPicks (calculateCompetitionScores cid db).picks cid u ∧
        s'.totalPicks = aggTotalPicks (calculateCompetitionScores cid db).picks cid u) ∧
    ((pickUsers (calculateCompetitionScores cid db).picks cid).map
        (fun u => aggTotalPoints (calculateCompetitionScores cid db).picks cid u)).sum
      = ((compPicks (calculateCompetitionScores cid db).picks cid).map
          (fun p => p.pointsEarned.getD 0)).sum := by
  set P := (calculateCompetitionScores cid db).picks with hPdef
  set users := pickUsers P cid with husersdef
  have hsc : (calculateCompetitionScores cid db).scores
      = rankScoreRows cid (upsertScores cid P db.scores) := rfl
  have hrankmem : ∀ (L : List Score) (x : Score), x ∈ L → ∃ y ∈ rankScoreRows cid L,
      y.competitionId = x.competitionId ∧ y.userId = x.userId ∧
      y.totalPoints = x.totalPoints ∧ y.correctPicks = x.correctPicks ∧
      y.totalPicks = x.totalPicks := by
    intro L x hx
    rw [rankScoreRows_eq]
    refine ⟨_, List.mem_map_of_mem _ hx, ?_⟩
    by_cases hxc : x.competitionId = cid <;> simp [hxc]
  constructor
  · intro u hu
    have hck : (rankScoreRows cid (upsertScores cid P db.scores)).countP
        (fun s => decide (s.competitionId = cid ∧ s.userId = u))
        = (upsertScores cid P db.scores).countP
            (fun s => decide (s.competitionId = cid ∧ s.userId = u)) := by
      rw [rankScoreRows_eq]
      exact countP_map_eq _ _ _ _ (fun x _ => by
        by_cases hxc : x.competitionId = cid <;> simp [hxc])
    have hcr : (db.scores.map (refreshScoreRow cid P users)).countP
        (fun s => decide (s.competitionId = cid ∧ s.userId = u))
        = db.scores.countP (fun s => decide (s.competitionId = cid ∧ s.userId = u)) :=
      countP_map_eq _ _ _ _ (fun s _ => by
        unfold refreshScoreRow
        split <;> rfl)
    have hci : ((users.filter (fun u' => !hasScoreRow db.scores cid u')).map
          (newScoreRow cid P)).countP
        (fun s => decide (s.competitionId = cid ∧ s.userId = u))
        = (users.filter (fun u' => !hasScoreRow db.scores cid u')).countP
            (fun u' => decide (u' = u)) :=
      countP_map_eq _ _ _ _ (fun u' _ => by
        show decide (cid = cid ∧ u' = u) = decide (u' = u)
        simp)
    constructor
    · rw [hsc, hck, upsertScores_eq, List.countP_append, hcr, hci]
      by_cases hb : hasScoreRow db.scores cid u = true
      · have hle := countP_pair_le_one db.scores cid u huniq
        have hpos : 0 < db.scores.countP
            (fun s => decide (s.competitionId = cid ∧ s.userId = u)) := by
          rw [List.countP_pos_iff]
          exact List.any_eq_true.mp hb
        have h0 : (users.filter (fun u' => !hasScoreRow db.scores cid u')).countP
            (fun u' => decide (u' = u)) = 0 := by
          rw [List.countP_eq_zero]
          intro u' hu'
          simp only [decide_eq_true_eq]
          intro hxe
          have hmf := (List.mem_filter.mp hu').2
          rw [hxe, hb] at hmf
          simp at hmf
        omega
      · have hbf : hasScoreRow db.scores cid u = false := by
          cases h : hasScoreRow db.scores cid u
          · rfl
          · exact absurd h hb
        have h0 : db.scores.countP
            (fun s => decide (s.competitionId = cid ∧ s.userId = u)) = 0 := by
          rw [List.countP_eq_zero]
          intro s0 hs0 hps0
          have hany : hasScoreRow db.scores cid u = true :=
            List.any_eq_true.mpr ⟨s0, hs0, hps0⟩
          rw [hbf] at hany
          exact Bool.false_ne_true hany
        have h1 : (users.filter (fun u' => !hasScoreRow db.scores cid u')).countP
            (fun u' => decide (u' = u)) = 1 := by
          apply nodup_countP_eq_one
          · exact List.Nodup.filter _ (List.nodup_dedup _)
          · rw [List.mem_filter]
            exact ⟨hu, by rw [hbf]; rfl⟩
        omega
    · by_cases hb : hasScoreRow db.scores cid u = true
      · rcases List.any_eq_true.mp hb with ⟨s0, hs0, hps0⟩
        rw [decide_eq_true_eq] at hps0
        have hcond : s0.competitionId = cid ∧ s0.userId ∈ users :=
          ⟨hps0.1, by rw [hps0.2]; exact hu⟩
        have hval : refreshScoreRow cid P users s0
            = { s0 with
                totalPoints := aggTotalPoints P cid s0.userId
                correctPicks := aggCorrectPicks P cid s0.userId
                totalPicks := aggTotalPicks P cid s0.userId } := by
          unfold refreshScoreRow
          rw [if_pos hcond]
        have hmemU : refreshScoreRow cid P users s0 ∈ upsertScores cid P db.scores := by
          rw [upsertScores_eq]
          exact List.mem_append_left _ (List.mem_map_of_mem _ hs0)
        rcases hrankmem _ _ hmemU with ⟨y, hy, hy1, hy2, hy3, hy4, hy5⟩
        refine ⟨y, by rw [hsc]; exact hy, ?_, ?_, ?_, ?_, ?_⟩
        · rw [hy1, refreshScoreRow_competitionId]
          exact hps0.1
        · rw [hy2, refreshScoreRow_userId]
          exact hps0.2
        · rw [hy3, hval]
          show aggTotalPoints P cid s0.userId = aggTotalPoints P cid u
          rw [hps0.2]
        · rw [hy4, hval]
          show aggCorrectPicks P cid s0.userId = aggCorrectPicks P cid u
          rw [hps0.2]
        · rw [hy5, hval]
          show aggTotalPicks P cid s0.userId = aggTotalPicks P cid u
          rw [hps0.2]
      · have hbf : hasScoreRow db.scores cid u = false := by
          cases h : hasScoreRow db.scores cid u
          · rfl
          · exact absurd h hb
        have humem : u ∈ users.filter (fun u' => !hasScoreRow db.scores cid u') := by
          rw [List.mem_filter]
          exact ⟨hu, by rw [hbf]; rfl⟩
        have hmemU : newScoreRow cid P u ∈ upsertScores cid P db.scores := by
          rw [upsertScores_eq]
          exact List.mem_append_right _ (List.mem_map_of_mem _ humem)
        rcases hrankmem _ _ hmemU with ⟨y, hy, hy1, hy2, hy3, hy4, hy5⟩
        exact ⟨y, by rw [hsc]; exact hy,
          by rw [hy1]; rfl, by rw [hy2]; rfl, by rw [hy3]; rfl,
          by rw [hy4]; rfl, by rw [hy5]; rfl⟩
  · have hnd : users.Nodup := List.nodup_dedup _
    have hcov : ∀ x ∈ compPicks P cid, x.userId ∈ users := by
      intro x hx
      exact List.mem_dedup.mpr (List.mem_map_of_mem _ hx)
    exact sum_over_groups (fun p => p.userId) (fun p => p.pointsEarned.getD 0)
      users (compPicks P cid) hnd hcov

/-- Witness for C5 over `exDB` (empty Scores table, so the uniqueness
constraint holds vacuously): both users get exactly one aggregated row
and the totals balance. -/
theorem score_rows_aggregate_user_picks_witness :
    (exDB.scores.Pairwise
      (fun a b => ¬(a.competitionId = b.competitionId ∧ a.userId = b.userId))) ∧
    ((∀ u ∈ pickUsers (calculateCompetitionScores 1 exDB).picks 1,
      ((calculateCompetitionScores 1 exDB).scores.countP
          (fun s => decide (s.competitionId = 1 ∧ s.userId = u)) = 1) ∧
      ∃ s' ∈ (calculateCompetitionScores 1 exDB).scores,
        s'.competitionId = 1 ∧ s'.userId = u ∧
        s'.totalPoints = aggTotalPoints (calculateCompetitionScores 1 exDB).picks 1 u ∧
        s'.correctPicks = aggCorrectPicks (calculateCompetitionScores 1 exDB).picks 1 u ∧
        s'.totalPicks = aggTotalPicks (calculateCompetitionScores 1 exDB).picks 1 u) ∧
    ((pickUsers (calculateCompetitionScores 1 exDB).picks 1).map
        (fun u => aggTotalPoints (calculateCompetitionScores 1 exDB).picks 1 u)).sum
      = ((compPicks (calculateCompetitionScores 1 exDB).picks 1).map
          (fun p => p.pointsEarned.getD 0)).sum) :=
  ⟨List.Pairwise.nil, score_rows_aggregate_user_picks exDB 1 List.Pairwise.nil⟩

/-! ### Idempotence of the whole competition calculation (C3) -/

theorem any_map_eq {α β : Type} (f : α → β) (l : List α) (p : β → Bool) (q : α → Bool)
    (h : ∀ x ∈ l, p (f x) = q x) : (l.map f).any p = l.any q := by
  induction l with
  | nil => rfl
  | cons a l ih =>
      rw [List.map_cons, List.any_cons, List.any_cons, h a (List.mem_cons_self a l),
        ih (fun x hx => h x (List.mem_cons_of_mem a hx))]

theorem filter_map_eq {α β : Type} (f : α → β) (l : List α) (p : β → Bool) (q : α → Bool)
    (h : ∀ x ∈ l, p (f x) = q x) : (l.map f).filter p = (l.filter q).map f := by
  induction l with
  | nil => rfl
  | cons a l ih =>
      have ih' := ih (fun x hx => h x (List.mem_cons_of_mem a hx))
      rw [List.map_cons, List.filter_cons, List.filter_cons,
        h a (List.mem_cons_self a l)]
      cases hqa : q a <;> simp [ih']

theorem grade_map_idem (cid : Nat) (gs : List Game) (l : List Pick) :
    (l.map (gradeForCalc cid gs)).map (gradeForCalc cid gs) = l.map (gradeForCalc cid gs) := by
  rw [List.map_map]
  exact List.map_congr_left (fun p _ => gradeForCalc_idem cid gs p)

theorem markScored_idem (cid : Nat) (c : Competition) :
    markScored cid (markScored cid c) = markScored cid c := by
  unfold markScored
  by_cases h : c.id = cid <;> simp [h]

theorem hasScoreRow_rank (cid' cid u : Nat) (L : List Score) :
    hasScoreRow (rankScoreRows cid' L) cid u = hasScoreRow L cid u := by
  unfold hasScoreRow
  rw [rankScoreRows_eq]
  exact any_map_eq _ _ _ _ (fun x _ => by
    by_cases hxc : x.competitionId = cid' <;> simp [hxc])

/-- After the upsert, every grouped user has a Scores row. -/
theorem upsert_covers_users (cid : Nat) (gp : List Pick) (S : List Score) :
    ∀ u ∈ pickUsers gp cid, hasScoreRow (upsertScores cid gp S) cid u = true := by
  intro u hu
  rw [upsertScores_eq]
  unfold hasScoreRow
  rw [List.any_eq_true]
  by_cases hb : hasScoreRow S cid u = true
  · rcases List.any_eq_true.mp hb with ⟨s0, hs0, hp0⟩
    rw [decide_eq_true_eq] at hp0
    refine ⟨refreshScoreRow cid gp (pickUsers gp cid) s0,
      List.mem_append_left _ (List.mem_map_of_mem _ hs0), ?_⟩
    rw [decide_eq_true_eq, refreshScoreRow_competitionId, refreshScoreRow_userId]
    exact hp0
  · have hbf : hasScoreRow S cid u = false := by
      cases h : hasScoreRow S cid u
      · rfl
      · exact absurd h hb
    refine ⟨newScoreRow cid gp u,
      List.mem_append_right _ (List.mem_map_of_mem _
        (List.mem_filter.mpr ⟨hu, by unfold hasScoreRow at hbf; rw [hbf]; rfl⟩)), ?_⟩
    rw [decide_eq_true_eq]
    exact ⟨rfl, rfl⟩

/-- Every row of the freshly upserted-and-ranked Scores table that
belongs to the competition and to a grouped user carries exactly the
aggregated values. -/
theorem upsert_rank_row_values (cid : Nat) (gp : List Pick) (S : List Score) :
    ∀ y ∈ rankScoreRows cid (upsertScores cid gp S),
      y.competitionId = cid → y.userId ∈ pickUsers gp cid →
      y.totalPoints = aggTotalPoints gp cid y.userId ∧
      y.correctPicks = aggCorrectPicks gp cid y.userId ∧
      y.totalPicks = aggTotalPicks gp cid y.userId := by
  intro y hy hyc hyu
  rw [rankScoreRows_eq] at hy
  rcases List.mem_map.mp hy with ⟨x, hx, hxy⟩
  subst hxy
  by_cases hxc : x.competitionId = cid
  · simp only [hxc, ite_true] at hyc hyu ⊢
    rw [upsertScores_eq] at hx
    rcases List.mem_append.mp hx with hx | hx
    · rcases List.mem_map.mp hx with ⟨s0, hs0, hsx⟩
      by_cases hcond : s0.competitionId = cid ∧ s0.userId ∈ pickUsers gp cid
      · have hxval : x = { s0 with
            totalPoints := aggTotalPoints gp cid s0.userId
            correctPicks := aggCorrectPicks gp cid s0.userId
            totalPicks := aggTotalPicks gp cid s0.userId } := by
          rw [← hsx]
          unfold refreshScoreRow
          rw [if_pos hcond]
        subst hxval
        exact ⟨rfl, rfl, rfl⟩
      · have hxeq : x = s0 := by
          rw [← hsx]
          unfold refreshScoreRow
          rw [if_neg hcond]
        subst hxeq
        exact absurd ⟨hxc, hyu⟩ hcond
    · rcases List.mem_map.mp hx with ⟨u', _, hux⟩
      subst hux
      exact ⟨rfl, rfl, rfl⟩
  · simp [hxc] at hyc

/-- Re-running the MERGE on the just-computed Scores table changes
nothing: every source group matches an existing row, and the update
writes back the values the row already holds. -/
theorem upsert_idem_step (cid : Nat) (gp : List Pick) (S : List Score) :
    upsertScores cid gp (rankScoreRows cid (upsertScores cid gp S))
      = rankScoreRows cid (upsertScores cid gp S) := by
  rw [upsertScores_eq]
  have hfilter : (pickUsers gp cid).filter
      (fun u => !hasScoreRow (rankScoreRows cid (upsertScores cid gp S)) cid u) = [] := by
    rw [List.filter_eq_nil_iff]
    intro u hu
    have h1 := upsert_covers_users cid gp S u hu
    have h2 : hasScoreRow (rankScoreRows cid (upsertScores cid gp S)) cid u = true := by
      rw [hasScoreRow_rank]
      exact h1
    simp [h2]
  have hmap : (rankScoreRows cid (upsertScores cid gp S)).map
      (refreshScoreRow cid gp (pickUsers gp cid))
      = rankScoreRows cid (upsertScores cid gp S) := by
    have hid : ∀ y ∈ rankScoreRows cid (upsertScores cid gp S),
        refreshScoreRow cid gp (pickUsers gp cid) y = id y := by
      intro y hy
      unfold refreshScoreRow
      split
      case isTrue h =>
        rcases upsert_rank_row_values cid gp S y hy h.1 h.2 with ⟨h1, h2, h3⟩
        rw [← h1, ← h2, ← h3]
        rfl
      case isFalse h => rfl
    rw [List.map_congr_left hid, List.map_id]
  rw [hfilter, hmap]
  simp

theorem scoreRankValue_key_congr (W : List Score) {s t : Score}
    (h : scoreKey s = scoreKey t) : scoreRankValue W s = scoreRankValue W t := by
  unfold scoreRankValue
  congr 1
  apply congrArg
  apply List.filter_congr
  intro u _
  unfold scoreBeats
  rw [h]

theorem scoreRankValue_map_invariant (W : List Score) (f : Score → Score)
    (hf : ∀ x ∈ W, scoreKey (f x) = scoreKey x) (s : Score) :
    scoreRankValue (W.map f) s = scoreRankValue W s := by
  unfold scoreRankValue
  congr 1
  rw [filter_map_eq f W (fun t => scoreBeats t s) (fun t => scoreBeats t s)
      (fun x hx => by
        show keyBeats (scoreKey (f x)) (scoreKey s) = keyBeats (scoreKey x) (scoreKey s)
        rw [hf x hx]),
    List.length_map]

/-- Re-ranking an already ranked Scores table writes the same ranks. -/
theorem rank_idem (cid : Nat) (L : List Score) :
    rankScoreRows cid (rankScoreRows cid L) = rankScoreRows cid L := by
  have hW1 : (rankScoreRows cid L).filter (fun t => decide (t.competitionId = cid))
      = (L.filter (fun t => decide (t.competitionId = cid))).map
          (fun s => if s.competitionId = cid
            then { s with rank := some (scoreRankValue
              (L.filter (fun t => decide (t.competitionId = cid))) s) }
            else s) := by
    rw [rankScoreRows_eq]
    exact filter_map_eq _ _ _ _ (fun x _ => by
      by_cases hxc : x.competitionId = cid <;> simp [hxc])
  rw [rankScoreRows_eq cid (rankScoreRows cid L)]
  have hid : ∀ y ∈ rankScoreRows cid L,
      (if y.competitionId = cid
        then { y with rank := some (scoreRankValue
          ((rankScoreRows cid L).filter (fun t => decide (t.competitionId = cid))) y) }
        else y) = id y := by
    intro y hy
    rw [rankScoreRows_eq] at hy
    rcases List.mem_map.mp hy with ⟨x, hx, hxy⟩
    subst hxy
    by_cases hxc : x.competitionId = cid
    · have hv : scoreRankValue
          ((rankScoreRows cid L).filter (fun t => decide (t.competitionId = cid)))
          { x with rank := some (scoreRankValue
            (L.filter (fun t => decide (t.competitionId = cid))) x) }
          = scoreRankValue (L.filter (fun t => decide (t.competitionId = cid))) x := by
        rw [hW1, scoreRankValue_map_invariant _ _ (fun x' _ => by
          by_cases h : x'.competitionId = cid <;> simp [h, scoreKey])]
        exact scoreRankValue_key_congr _ rfl
      rw [if_pos hxc]
      rw [if_pos (show ({ x with rank := some (scoreRankValue
        (L.filter (fun t => decide (t.competitionId = cid))) x) } : Score).competitionId = cid
        from hxc)]
      rw [hv]
      rfl
    · rw [if_neg hxc, if_neg hxc]
      rfl
  rw [List.map_congr_left hid, List.map_id]

/-- C3: the competition calculation is idempotent — running the
grade-aggregate-rank batch twice in a row over an unchanged database
produces exactly the same database state (graded picks, Score rows and
ranks) as running it once. -/
theorem calculateCompetitionScores_idempotent (cid : Nat) (db : DB) :
    calculateCompetitionScores cid (calculateCompetitionScores cid db)
      = calculateCompetitionScores cid db := by
  have hpicks : (calculateCompetitionScores cid db).picks.map
      (gradeForCalc cid (calculateCompetitionScores cid db).games)
      = (calculateCompetitionScores cid db).picks := by
    show (db.picks.map (gradeForCalc cid db.games)).map (gradeForCalc cid db.games)
      = db.picks.map (gradeForCalc cid db.games)
    exact grade_map_idem cid db.games db.picks
  have hscores : rankScoreRows cid (upsertScores cid
      (calculateCompetitionScores cid db).picks (calculateCompetitionScores cid db).scores)
      = (calculateCompetitionScores cid db).scores := by
    show rankScoreRows cid (upsertScores cid (db.picks.map (gradeForCalc cid db.games))
        (rankScoreRows cid (upsertScores cid (db.picks.map (gradeForCalc cid db.games))
          db.scores)))
      = rankScoreRows cid (upsertScores cid (db.picks.map (gradeForCalc cid db.games))
          db.scores)
    rw [upsert_idem_step, rank_idem]
  have hcomps : (calculateCompetitionScores cid db).competitions.map (markScored cid)
      = (calculateCompetitionScores cid db).competitions := by
    show (db.competitions.map (markScored cid)).map (markScored cid)
      = db.competitions.map (markScored cid)
    rw [List.map_map]
    exact List.map_congr_left (fun c _ => markScored_idem cid c)
  show DB.mk ((calculateCompetitionScores cid db).competitions.map (markScored cid))
      (calculateCompetitionScores cid db).games
      ((calculateCompetitionScores cid db).picks.map
        (gradeForCalc cid (calculateCompetitionScores cid db).games))
      (rankScoreRows cid (upsertScores cid
        ((calculateCompetitionScores cid db).picks.map
          (gradeForCalc cid (calculateCompetitionScores cid db).games))
        (calculateCompetitionScores cid db).scores))
      (calculateCompetitionScores cid db).seasonStandings
    = calculateCompetitionScores cid db
  rw [hpicks, hscores, hcomps]

end Pickem
